import Mathlib

/-!
Shallow embedding of `bcbio/pipeline/fastq.py` (bcbio-nextgen): the fastq
staging orchestrator (`get_fastq_files`), the gzip / bzip2 normalization
transforms (`_gzip_fastq`, `_bzip_gzip`) and the merge engine
(`merge`, `_merge_list_fastqs`).

Filesystem state is a map from path to optional content; external effects
(shell commands run through `do.run`, `shutil.move`, `safe_makedir`,
delegated conversions) are recorded in an explicit effect trace.  External
collaborators that live outside the translated file (remote-object-store
lookup, format sniffing, the BAM-to-fastq converter, quality grooming and
the aligner capability registry) are modelled as an `Env` of oracles, per
the spec's data model (location kind, container format, compression state).
-/

deriving instance DecidableEq for Except

namespace BcbioFastq

/-- Modelled from the spec: compression state of an input file is one of
none / gzip / bzip2 (spec section 3, InputFile attributes).  The concrete
inspectors `utils.is_gzipped` / `utils.is_bzipped` are collaborators not
present in the translated source. -/
inductive Comp where
  | plain
  | gzip
  | bzip2
deriving DecidableEq

/-- Local filesystem state: each path maps to `some content` when the file
exists and `none` otherwise. -/
abbrev FS := String → Option String

/-- Create or overwrite a file. -/
def FS.write (fs : FS) (p c : String) : FS :=
  fun q => if q = p then some c else fs q

/-- Delete a file. -/
def FS.erase (fs : FS) (p : String) : FS :=
  fun q => if q = p then none else fs q

/-- Embedding of `bcbio.utils.file_exists` (collaborator): a path exists
when the filesystem maps it to some content. -/
def file_exists (fs : FS) (p : String) : Bool :=
  (fs p).isSome

/-- Observable external effects of the staging code, in program order. -/
inductive Effect where
  | run (cmd : String)
  | move (src dst : String)
  | makedir (d : String)
  | convertBam (f : String)
  | groom (f : String)
deriving DecidableEq

/-- Modelled from the spec: the external collaborator interfaces of
section 6 (`is_remote`, `is_read_format`, compression inspection, the
aligner capability registry keyed by aligner name, the binary-to-reads
converter result paths, the quality-format normalizer result, and the
content transforms performed by the external `gzip` / `bunzip2 | gzip`
pipelines). -/
structure Env where
  is_remote : String → Bool
  is_fastq : String → Bool
  compression : String → Comp
  supportBam : String → Bool
  prepFastqInputs : String → List String
  groomResult : String → Option String
  gzipContent : String → String
  bunzipGzipContent : String → String

/-- Embedding of `utils.is_bzipped` under the spec's compression model. -/
def is_bzipped (env : Env) (p : String) : Bool :=
  env.compression p == Comp.bzip2

/-- Embedding of `utils.is_gzipped` under the spec's compression model. -/
def is_gzipped (env : Env) (p : String) : Bool :=
  env.compression p == Comp.gzip

/-- Embedding of Python `str.endswith`. -/
def pyEndsWith (s sfx : String) : Bool :=
  sfx.toList.isSuffixOf s.toList

/-- Index of the last occurrence of a character in a character list. -/
def lastIdxOf (cs : List Char) (c : Char) : Option Nat :=
  match cs with
  | [] => none
  | x :: xs =>
    match lastIdxOf xs c with
    | some i => some (i + 1)
    | none => if x = c then some 0 else none

/-- Embedding of `os.path.splitext`: split at the final dot of the final
path component, provided some earlier character of that component is not a
dot (so dotfiles have no extension). -/
def splitext (p : String) : String × String :=
  let cs := p.toList
  let sep : Nat :=
    match lastIdxOf cs '/' with
    | some i => i + 1
    | none => 0
  match lastIdxOf cs '.' with
  | none => (p, "")
  | some d =>
    if sep ≤ d ∧ ((cs.drop sep).take (d - sep)).any (fun ch => ch ≠ '.') then
      (String.mk (cs.take d), String.mk (cs.drop d))
    else
      (p, "")

/-- Modelled from the spec: `bcbio.utils.splitext_plus` (a collaborator not
in the translated source) splits off the extension while folding a
compression suffix into the extension, so the `_R1` / `_R2` tags land
before the real extension. -/
def splitext_plus (p : String) : String × String :=
  let be := splitext p
  if be.2 = ".gz" ∨ be.2 = ".bz2" ∨ be.2 = ".zip" then
    let be2 := splitext be.1
    (be2.1, be2.2 ++ be.2)
  else
    be

/-- Embedding of `os.path.basename`: the part after the final slash. -/
def basename (p : String) : String :=
  match lastIdxOf p.toList '/' with
  | some i => String.mk (p.toList.drop (i + 1))
  | none => p

/-- Embedding of `os.path.join` for the joins the module performs
(directory without trailing slash, relative file name). -/
def pathJoin (d f : String) : String :=
  d ++ "/" ++ f

/-- Content produced by `cat f1 f2 ... > out`: concatenation of the
inputs' contents in order (missing files contribute nothing). -/
def concatContents (fs : FS) : List String → String
  | [] => ""
  | f :: rest => (fs f).getD "" ++ concatContents fs rest

/-- Deterministic output path of `_bzip_gzip` (fastq.py lines 80-85):
strip the final extension, append `.gz`, optionally relocating into the
given output directory. -/
def bzipGzipTarget (in_file : String) (out_dir : Option String) : String :=
  match out_dir with
  | some d => pathJoin d (basename (splitext in_file).1 ++ ".gz")
  | none => (splitext in_file).1 ++ ".gz"

/-- Embedding of `_bzip_gzip` (fastq.py lines 74-93): convert a bzip2 file
to gzip.  Returns the resulting path, the new filesystem and the external
effects performed. -/
def bzip_gzip (env : Env) (fs : FS) (in_file : String) (out_dir : Option String) :
    String × FS × List Effect :=
  if !(is_bzipped env in_file) then
    (in_file, fs, [])
  else
    let gzipped_file := bzipGzipTarget in_file out_dir
    if env.is_fastq (splitext in_file).1 && !(env.is_remote in_file) then
      if file_exists fs gzipped_file then
        (gzipped_file, fs, [])
      else
        (gzipped_file,
         FS.write fs gzipped_file (env.bunzipGzipContent ((fs in_file).getD "")),
         [Effect.run ("bunzip2 -c " ++ in_file ++ " | gzip > " ++ gzipped_file)])
    else
      (in_file, fs, [])

/-- Deterministic output path of the plain gzip branch of `_gzip_fastq`
(fastq.py lines 59-63). -/
def gzipTarget (in_file : String) (out_dir : Option String) : String :=
  match out_dir with
  | some d => pathJoin d (basename in_file ++ ".gz")
  | none => in_file ++ ".gz"

/-- Embedding of `_gzip_fastq` (fastq.py lines 51-72): gzip a fastq file
unless it is remote or already gzipped, delegating bzip2 inputs to
`bzip_gzip`. -/
def gzip_fastq (env : Env) (fs : FS) (in_file : String) (out_dir : Option String) :
    String × FS × List Effect :=
  if env.is_fastq in_file && !(env.is_remote in_file) then
    if is_bzipped env in_file then
      bzip_gzip env fs in_file out_dir
    else if !(is_gzipped env in_file) then
      let gzipped_file := gzipTarget in_file out_dir
      if file_exists fs gzipped_file then
        (gzipped_file, fs, [])
      else
        (gzipped_file,
         FS.write fs gzipped_file (env.gzipContent ((fs in_file).getD "")),
         [Effect.run ("gzip -c " ++ in_file ++ " > " ++ gzipped_file)])
    else
      (in_file, fs, [])
  else
    (in_file, fs, [])

/-- Sequential application of `gzip_fastq` to a list of files (the list
comprehensions at fastq.py lines 45 and 129), threading the filesystem
through the calls. -/
def gzip_fastq_all (env : Env) (out_dir : Option String) :
    List String → FS → List String × FS × List Effect
  | [], fs => ([], fs, [])
  | f :: rest, fs =>
    let r := gzip_fastq env fs f out_dir
    let rs := gzip_fastq_all env out_dir rest r.2.1
    (r.1 :: rs.1, rs.2.1, r.2.2 ++ rs.2.2)

/-- Pipeline configuration and per-lane data relevant to `get_fastq_files`
(fastq.py lines 17-49): the optional `files` entry, presence of a `bowtie`
key in `data` reference resources (line 24), the trim-reads flag and
quality format from `datadict`, the work directory and the configured
aligner (`config.algorithm.aligner`, possibly absent or empty). -/
structure Data where
  files : Option (List String)
  referenceHasBowtie : Bool
  trim_reads : Bool
  quality_format : String
  work_dir : String
  aligner : Option String

/-- Fatal assertion failures of `get_fastq_files`. -/
inductive StageError where
  | missingFilesKey
  | doesNotExist (p : String)
deriving DecidableEq

/-- Embedding of `_pipeline_needs_fastq` (fastq.py lines 95-100): a truthy
aligner that is not in the `support_bam` capability registry forces BAM
conversion. -/
def pipeline_needs_fastq (env : Env) (data : Data) : Bool :=
  match data.aligner with
  | none => false
  | some a => !(a == "") && !(env.supportBam a)

/-- Embedding of `convert_bam_to_fastq` (fastq.py lines 103-106): delegate
to the external `alignprep.prep_fastq_inputs`, which yields its output
paths (possibly several, e.g. mate pairs) on the filesystem. -/
def convert_bam_to_fastq (env : Env) (fs : FS) (in_file : String) :
    List String × FS × List Effect :=
  let outs := env.prepFastqInputs in_file
  (outs,
   outs.foldl (fun acc p => FS.write acc p ((fs in_file).getD "")) fs,
   [Effect.convertBam in_file])

/-- Embedding of the per-file loop of `get_fastq_files` (fastq.py lines
27-41).  The accumulator holds optional entries because the grooming
branch may append a missing result, filtered out afterwards (line 42).
Note the two BAM sub-branches assign `ready_files` instead of appending
to it. -/
def get_fastq_files_loop (env : Env) (data : Data) :
    List String → List (Option String) → FS → List Effect →
    List (Option String) × FS × List Effect
  | [], ready, fs, effs => (ready, fs, effs)
  | fname :: rest, ready, fs, effs =>
    if pyEndsWith fname ".bam" then
      if pipeline_needs_fastq env data then
        let r := convert_bam_to_fastq env fs fname
        get_fastq_files_loop env data rest (r.1.map some) r.2.1 (effs ++ r.2.2)
      else
        get_fastq_files_loop env data rest [some fname] fs effs
    else if env.is_remote fname then
      get_fastq_files_loop env data rest (ready ++ [some fname]) fs effs
    else if !data.trim_reads && !(data.quality_format == "standard") then
      let out_dir := pathJoin data.work_dir "fastq_convert"
      let g := env.groomResult fname
      let fs1 := match g with
        | some p => FS.write fs p ((fs fname).getD "")
        | none => fs
      get_fastq_files_loop env data rest (ready ++ [g]) fs1
        (effs ++ [Effect.makedir out_dir, Effect.groom fname])
    else
      get_fastq_files_loop env data rest (ready ++ [some fname]) fs effs

/-- Embedding of `get_fastq_files` (fastq.py lines 17-49): assert the
`files` entry is present, resolve each file through the decision loop,
drop missing results, gzip-normalize the batch unless a `bowtie`
reference resource is configured, and assert every local result exists. -/
def get_fastq_files (env : Env) (data : Data) (fs : FS) :
    Except StageError (List String × FS × List Effect) :=
  match data.files with
  | none => Except.error StageError.missingFilesKey
  | some files =>
    let should_gzip := !data.referenceHasBowtie
    let r := get_fastq_files_loop env data files [] fs []
    let ready := r.1.filterMap id
    let r2 :=
      if should_gzip then
        let out_dir := pathJoin data.work_dir "fastq"
        let g := gzip_fastq_all env (some out_dir) ready r.2.1
        (g.1, g.2.1, r.2.2 ++ [Effect.makedir out_dir] ++ g.2.2)
      else
        (ready, r.2.1, r.2.2)
    match r2.1.find? (fun f => !(env.is_remote f) && !(file_exists r2.2.1 f)) with
    | some f => Except.error (StageError.doesNotExist f)
    | none => Except.ok r2

/-- The staged file list produced by `get_fastq_files`, when it succeeds. -/
def stagedFiles (env : Env) (data : Data) (fs : FS) : Option (List String) :=
  match get_fastq_files env data fs with
  | Except.ok r => some r.1
  | Except.error _ => none

/-- The effect trace of a successful `get_fastq_files` run. -/
def stagedEffects (env : Env) (data : Data) (fs : FS) : Option (List Effect) :=
  match get_fastq_files env data fs with
  | Except.ok r => some r.2.2
  | Except.error _ => none

/-- Fatal failures of the merge engine: a list indexing error
(`IndexError`), the `ValueError` for non-fastq inputs, or the existence
assertion. -/
inductive MergeError where
  | indexOutOfBounds
  | notAllFastq (files : List String)
  | notAllExist (files : List String)
deriving DecidableEq

/-- Embedding of `[fastq_file[0] for fastq_file in files]` (fastq.py line
110): first mates of every file set, failing like Python indexing on an
empty set. -/
def firsts : List (List String) → Except MergeError (List String)
  | [] => Except.ok []
  | l :: rest =>
    match l[0]? with
    | none => Except.error MergeError.indexOutOfBounds
    | some x =>
      match firsts rest with
      | Except.ok xs => Except.ok (x :: xs)
      | Except.error e => Except.error e

/-- Embedding of `[fastq_file[1] for fastq_file in files]` (fastq.py line
114): second mates of every file set, failing like Python indexing on a
set with fewer than two members. -/
def seconds : List (List String) → Except MergeError (List String)
  | [] => Except.ok []
  | l :: rest =>
    match l[1]? with
    | none => Except.error MergeError.indexOutOfBounds
    | some x =>
      match seconds rest with
      | Except.ok xs => Except.ok (x :: xs)
      | Except.error e => Except.error e

/-- Embedding of `_merge_list_fastqs` (fastq.py lines 122-138): validate
the inputs, short-circuit on an existing output, gzip-normalize, then
either move a single file or concatenate several. -/
def merge_list_fastqs (env : Env) (fs : FS) (files : List String) (out_file : String) :
    Except MergeError (String × FS × List Effect) :=
  if !(files.all env.is_fastq) then
    Except.error (MergeError.notAllFastq files)
  else if !(files.all (file_exists fs)) then
    Except.error (MergeError.notAllExist files)
  else if !(file_exists fs out_file) then
    let g := gzip_fastq_all env none files fs
    let files1 := g.1
    let fs1 := g.2.1
    if files1.length == 1 then
      let src := files1.headD ""
      Except.ok (out_file,
        FS.erase (FS.write fs1 out_file ((fs1 src).getD "")) src,
        g.2.2 ++ [Effect.move src out_file])
    else
      Except.ok (out_file,
        FS.write fs1 out_file (concatContents fs1 files1),
        g.2.2 ++ [Effect.run ("cat " ++ String.intercalate " " files1 ++ " > " ++ out_file)])
  else
    Except.ok (out_file, fs, [])

/-- Result shape of `merge`: the paired branch returns a two-element list
of paths, the single-end branch returns the bare merged path. -/
inductive MergeResult where
  | single (p : String)
  | paired (r1 r2 : String)
deriving DecidableEq

/-- Output path of the first paired merge (fastq.py line 112). -/
def pairedOut1 (out_file : String) : String :=
  (splitext_plus out_file).1 ++ "_R1" ++ (splitext_plus out_file).2

/-- Output path of the second paired merge (fastq.py line 115). -/
def pairedOut2 (out_file : String) : String :=
  (splitext_plus out_file).1 ++ "_R2" ++ (splitext_plus out_file).2

/-- Embedding of `merge` (fastq.py lines 108-120): collect first mates,
decide the mode from the length of the first file set, and merge one or
two lists. -/
def merge (env : Env) (fs : FS) (files : List (List String)) (out_file : String) :
    Except MergeError (MergeResult × FS × List Effect) :=
  match firsts files with
  | Except.error e => Except.error e
  | Except.ok pair1 =>
    match files[0]? with
    | none => Except.error MergeError.indexOutOfBounds
    | some f0 =>
      if f0.length > 1 then
        match seconds files with
        | Except.error e => Except.error e
        | Except.ok pair2 =>
          match merge_list_fastqs env fs pair1 (pairedOut1 out_file) with
          | Except.error e => Except.error e
          | Except.ok r1 =>
            match merge_list_fastqs env r1.2.1 pair2 (pairedOut2 out_file) with
            | Except.error e => Except.error e
            | Except.ok r2 =>
              Except.ok (MergeResult.paired (pairedOut1 out_file) (pairedOut2 out_file),
                         r2.2.1, r1.2.2 ++ r2.2.2)
      else
        match merge_list_fastqs env fs pair1 out_file with
        | Except.error e => Except.error e
        | Except.ok r => Except.ok (MergeResult.single r.1, r.2.1, r.2.2)

/-- Merged path of a successful `merge_list_fastqs` call. -/
def mergedPath (env : Env) (fs : FS) (files : List String) (out_file : String) :
    Option String :=
  match merge_list_fastqs env fs files out_file with
  | Except.ok r => some r.1
  | Except.error _ => none

/-- Run `merge_list_fastqs` twice with the same arguments, threading the
filesystem produced by the first call into the second; yields the second
call's merged path or its error. -/
def merge_list_fastqs_twice (env : Env) (fs : FS) (files : List String) (out_file : String) :
    Except MergeError String :=
  match merge_list_fastqs env fs files out_file with
  | Except.error e => Except.error e
  | Except.ok r =>
    match merge_list_fastqs env r.2.1 files out_file with
    | Except.error e => Except.error e
    | Except.ok r2 => Except.ok r2.1

/-- First mates of a sequence of file sets, as `merge` reads them. -/
def mates1 (files : List (List String)) : List String :=
  files.map (fun l => l.headD "")

/-- Second mates of a sequence of file sets, as `merge` reads them. -/
def mates2 (files : List (List String)) : List String :=
  files.map (fun l => l[1]?.getD "")

/-- Filesystem with no files, used as a concrete starting state. -/
def emptyFS : FS := fun _ => none

/-- Concrete collaborator environment for the concrete runs: everything is
local, fastq-ness and compression are read off the path suffix, no aligner
supports BAM input, and BAM conversion yields the mate pair
`b1.fq` / `b2.fq`. -/
def baseEnv : Env :=
  { is_remote := fun _ => false
    is_fastq := fun p => pyEndsWith p ".fq" || pyEndsWith p ".fq.gz"
    compression := fun p =>
      if pyEndsWith p ".gz" then Comp.gzip
      else if pyEndsWith p ".bz2" then Comp.bzip2
      else Comp.plain
    supportBam := fun _ => false
    prepFastqInputs := fun _ => ["b1.fq", "b2.fq"]
    groomResult := fun p => some p
    gzipContent := fun c => c
    bunzipGzipContent := fun c => c }

/-- Concrete pipeline data: trimming on, standard quality, a `bowtie`
reference resource (so the batch gzip step is skipped), aligner `bwa`. -/
def baseData : Data :=
  { files := some ["a.fq"]
    referenceHasBowtie := true
    trim_reads := true
    quality_format := "standard"
    work_dir := "wd"
    aligner := some "bwa" }

/-- Two input files, the second an aligned-binary (BAM) file. -/
def c1data : Data := { baseData with files := some ["a.fq", "b.bam"] }

/-- Only the first of those input files. -/
def c1dataSolo : Data := { baseData with files := some ["a.fq"] }

/-- Filesystem holding the two C1 inputs. -/
def c1fs : FS := fun p =>
  if p = "a.fq" then some "A" else if p = "b.bam" then some "B" else none

/-- Pipeline data whose declared input list is present but empty. -/
def c2data : Data := { baseData with files := some [] }

/-- Pipeline data with no `files` entry at all. -/
def c2dataNoKey : Data := { baseData with files := none }

/-- Filesystem holding a single gzipped fastq file. -/
def c3fs : FS := fun p => if p = "f.fq.gz" then some "DATA" else none

/-- Filesystem where the merge target also already exists. -/
def c3fsCached : FS := fun p =>
  if p = "f.fq.gz" then some "DATA"
  else if p = "out.fq.gz" then some "OLD" else none

/-- Environment where the BAM input lives in remote object storage and
conversion yields the local mate pair `r1.fq` / `r2.fq`. -/
def c4env : Env :=
  { baseEnv with
    is_remote := fun p => p == "s3://b/r.bam" || p == "s3://b/x.fq"
    prepFastqInputs := fun _ => ["r1.fq", "r2.fq"] }

/-- Pipeline data whose single input is the remote BAM file. -/
def c4data : Data := { baseData with files := some ["s3://b/r.bam"] }

/-- Pipeline data without a `bowtie` reference resource, so the batch
gzip-normalization step runs. -/
def c5data : Data := { baseData with files := some ["x.fq"], referenceHasBowtie := false }

/-- Filesystem holding the single uncompressed C5 input. -/
def c5fs : FS := fun p => if p = "x.fq" then some "X" else none

/-- Two paired-end file sets, all gzipped fastq files. -/
def c6files : List (List String) :=
  [["a1.fq.gz", "a2.fq.gz"], ["b1.fq.gz", "b2.fq.gz"]]

/-- Filesystem holding the four C6 mate files. -/
def c6fs : FS := fun p =>
  if p = "a1.fq.gz" then some "A1"
  else if p = "a2.fq.gz" then some "A2"
  else if p = "b1.fq.gz" then some "B1"
  else if p = "b2.fq.gz" then some "B2" else none

/-- Filesystem holding one existing fastq file, for the merge
precondition checks. -/
def c7fs : FS := fun p => if p = "a.fq" then some "A" else none

/-- Environment where the bzip2-compressed read file is remote. -/
def c8env : Env :=
  { baseEnv with is_remote := fun p => p == "r.fq.bz2" }

/-- Filesystem holding the remote bzip2 file's placeholder and a local
bzip2 file together with its already-produced gzip output. -/
def c8fs : FS := fun p =>
  if p = "r.fq.bz2" then some "BZ"
  else if p = "l.fq.bz2" then some "LBZ"
  else if p = "l.fq.gz" then some "OLD" else none

/-- A paired first set followed by a single-member set, for the ragged
merge input. -/
def c10files : List (List String) :=
  [["a1.fq.gz", "a2.fq.gz"], ["c1.fq.gz"]]

/-- C2 counterexample: staging an input set whose declared `files` list is
present but empty does not fail; `get_fastq_files` returns successfully
with an empty result set, because the entry assertion only checks that the
`files` key exists, not that the list is non-empty. -/
theorem C2_counterexample :
    stagedFiles baseEnv c2data emptyFS = some [] := by decide

/-- C2 (amended): the entry assertion of `get_fastq_files` fails fatally
exactly when the `files` entry is absent; an empty declared file list
passes the assertion and staging succeeds with an empty result set. -/
theorem C2_entry_assertion (env : Env) (data : Data) (fs : FS) :
    (data.files = none →
      get_fastq_files env data fs = Except.error StageError.missingFilesKey) ∧
    (data.files = some [] → stagedFiles env data fs = some []) := by
  constructor
  · intro h
    simp [get_fastq_files, h]
  · intro h
    cases hb : data.referenceHasBowtie <;>
      simp [stagedFiles, get_fastq_files, h, hb, get_fastq_files_loop, gzip_fastq_all]

/-- C2 witness: concrete runs discharging both hypotheses of the amended
theorem. -/
theorem C2_witness :
    get_fastq_files baseEnv c2dataNoKey emptyFS =
      Except.error StageError.missingFilesKey ∧
    stagedFiles baseEnv c2data emptyFS = some [] :=
  ⟨(C2_entry_assertion baseEnv c2dataNoKey emptyFS).1 (by decide),
   (C2_entry_assertion baseEnv c2data emptyFS).2 (by decide)⟩

/-- C3 counterexample: merging the single gzipped fastq file `f.fq.gz`
into `out.fq.gz` succeeds by relocating the input, but repeating the very
same call afterwards does not return the existing output: it fails the
input-existence assertion, because the preconditions are checked before
the output-existence short-circuit and the input was moved away. -/
theorem C3_counterexample :
    mergedPath baseEnv c3fs ["f.fq.gz"] "out.fq.gz" = some "out.fq.gz" ∧
    merge_list_fastqs_twice baseEnv c3fs ["f.fq.gz"] "out.fq.gz" =
      Except.error (MergeError.notAllExist ["f.fq.gz"]) := by decide

/-- C3 (amended): `_merge_list_fastqs` is cached by the output path only
when its preconditions still hold: if every input is a fastq file that
still exists and the target output exists, the call returns the output
path immediately, with no filesystem change and no external effect.
After a single-input merge that relocated its input, a repeated call
instead fails the input-existence assertion. -/
theorem C3_cached_output (env : Env) (fs : FS) (files : List String) (out_file : String)
    (hfq : files.all env.is_fastq = true)
    (hex : files.all (file_exists fs) = true)
    (hout : file_exists fs out_file = true) :
    merge_list_fastqs env fs files out_file = Except.ok (out_file, fs, []) := by
  simp [merge_list_fastqs, hfq, hex, hout]

/-- C3 witness: with the input still present and the output already on
disk, the merge returns the cached output path untouched. -/
theorem C3_witness :
    merge_list_fastqs baseEnv c3fsCached ["f.fq.gz"] "out.fq.gz" =
      Except.ok ("out.fq.gz", c3fsCached, []) :=
  C3_cached_output baseEnv c3fsCached ["f.fq.gz"] "out.fq.gz"
    (by decide) (by decide) (by decide)

/-- C4 counterexample: a remote aligned-binary input is not passed through
unchanged: because the container-format branch is checked before the
location branch, the remote BAM file is sent to the binary-to-reads
conversion primitive and the result set holds the converted mate files
instead of the original remote file. -/
theorem C4_counterexample :
    c4env.is_remote "s3://b/r.bam" = true ∧
    stagedFiles c4env c4data emptyFS = some ["r1.fq", "r2.fq"] ∧
    stagedEffects c4env c4data emptyFS =
      some [Effect.convertBam "s3://b/r.bam"] := by decide

/-- C4 (amended): for every remote input that is not an aligned-binary
(`.bam`) file, the staging loop passes the file through unchanged with no
filesystem change and no effect, and gzip-normalization leaves it
untouched; a remote `.bam` file is instead handled by the aligned-binary
branch. -/
theorem C4_remote_passthrough (env : Env) (data : Data) (fs : FS)
    (fname : String) (rest : List String) (ready : List (Option String))
    (effs : List Effect)
    (hrem : env.is_remote fname = true)
    (hnb : pyEndsWith fname ".bam" = false) :
    get_fastq_files_loop env data (fname :: rest) ready fs effs =
      get_fastq_files_loop env data rest (ready ++ [some fname]) fs effs ∧
    ∀ d, gzip_fastq env fs fname d = (fname, fs, []) := by
  constructor
  · simp [get_fastq_files_loop, hnb, hrem]
  · intro d
    simp [gzip_fastq, hrem]

/-- C4 witness: a remote fastq file is passed through by the loop and
untouched by gzip-normalization. -/
theorem C4_witness :
    get_fastq_files_loop c4env baseData ["s3://b/x.fq"] [] emptyFS [] =
      get_fastq_files_loop c4env baseData [] [some "s3://b/x.fq"] emptyFS [] ∧
    ∀ d, gzip_fastq c4env emptyFS "s3://b/x.fq" d = ("s3://b/x.fq", emptyFS, []) := by
  have h := C4_remote_passthrough c4env baseData emptyFS "s3://b/x.fq" [] [] []
    (by decide) (by decide)
  exact ⟨h.1, h.2⟩

/-- C7: `_merge_list_fastqs` fails fatally, returning no output and
performing no effect, when some input fails the read-format predicate
(with the validation error carrying the offending file list) or, all
inputs being fastq, when some input does not exist (with the assertion
error carrying the file list). -/
theorem C7_merge_preconditions (env : Env) (fs : FS) (files : List String)
    (out_file : String) :
    (files.all env.is_fastq = false →
      merge_list_fastqs env fs files out_file =
        Except.error (MergeError.notAllFastq files)) ∧
    (files.all env.is_fastq = true → files.all (file_exists fs) = false →
      merge_list_fastqs env fs files out_file =
        Except.error (MergeError.notAllExist files)) := by
  constructor
  · intro h
    simp [merge_list_fastqs, h]
  · intro h1 h2
    simp [merge_list_fastqs, h1, h2]

/-- C7 witness: a non-fastq input raises the validation error and a
missing fastq input fails the existence assertion. -/
theorem C7_witness :
    merge_list_fastqs baseEnv c7fs ["x.txt"] "o.fq" =
      Except.error (MergeError.notAllFastq ["x.txt"]) ∧
    merge_list_fastqs baseEnv c7fs ["a.fq", "missing.fq"] "o.fq" =
      Except.error (MergeError.notAllExist ["a.fq", "missing.fq"]) :=
  ⟨(C7_merge_preconditions baseEnv c7fs ["x.txt"] "o.fq").1 (by decide),
   (C7_merge_preconditions baseEnv c7fs ["a.fq", "missing.fq"] "o.fq").2
     (by decide) (by decide)⟩

/-- C8 counterexample: a remote bzip2-compressed read file is not
converted: `_bzip_gzip` returns the input unchanged, produces no file at
the deterministic `.gz` output path and runs no external pipeline. -/
theorem C8_counterexample :
    is_bzipped c8env "r.fq.bz2" = true ∧
    c8env.is_fastq "r.fq" = true ∧
    c8env.is_remote "r.fq.bz2" = true ∧
    (bzip_gzip c8env c8fs "r.fq.bz2" none).1 = "r.fq.bz2" ∧
    (bzip_gzip c8env c8fs "r.fq.bz2" none).2.2 = [] ∧
    file_exists (bzip_gzip c8env c8fs "r.fq.bz2" none).2.1 "r.fq.gz" = false := by
  decide

/-- C8 (amended): `_bzip_gzip` is a no-op returning the input unchanged
for every input that is not bzip2-compressed; for a local (non-remote)
bzip2-compressed read file it returns the deterministic output path (the
basename with the extension swapped to `.gz`, optionally relocated into
the given output directory), and if that output already exists it returns
it with no filesystem change and no external pipeline run. -/
theorem C8_bzip_gzip_contract (env : Env) (fs : FS) (in_file : String)
    (out_dir : Option String) :
    (is_bzipped env in_file = false →
      bzip_gzip env fs in_file out_dir = (in_file, fs, [])) ∧
    (is_bzipped env in_file = true →
     env.is_fastq (splitext in_file).1 = true →
     env.is_remote in_file = false →
      (bzip_gzip env fs in_file out_dir).1 = bzipGzipTarget in_file out_dir ∧
      (file_exists fs (bzipGzipTarget in_file out_dir) = true →
        bzip_gzip env fs in_file out_dir =
          (bzipGzipTarget in_file out_dir, fs, []))) := by
  constructor
  · intro h
    simp [bzip_gzip, h]
  · intro h1 h2 h3
    constructor
    · by_cases hfe : file_exists fs (bzipGzipTarget in_file out_dir) = true <;>
        simp [bzip_gzip, h1, h2, h3, hfe]
    · intro hfe
      simp [bzip_gzip, h1, h2, h3, hfe]

/-- C8 witness: a plain (non-bzip2) file passes through unchanged, and the
local bzip2 file `l.fq.bz2` with existing output `l.fq.gz` short-circuits
to the deterministic path. -/
theorem C8_witness :
    bzip_gzip baseEnv c8fs "plain.fq" none = ("plain.fq", c8fs, []) ∧
    (bzip_gzip baseEnv c8fs "l.fq.bz2" none).1 = bzipGzipTarget "l.fq.bz2" none ∧
    bzip_gzip baseEnv c8fs "l.fq.bz2" none = (bzipGzipTarget "l.fq.bz2" none, c8fs, []) := by
  have h1 := (C8_bzip_gzip_contract baseEnv c8fs "plain.fq" none).1 (by decide)
  have h2 := (C8_bzip_gzip_contract baseEnv c8fs "l.fq.bz2" none).2
    (by decide) (by decide) (by decide)
  exact ⟨h1, h2.1, h2.2 (by decide)⟩

/-- C9: gzip-normalization is a true no-op for every remote file and for
every file already gzip-compressed: the returned path is the input path,
the filesystem is unchanged and no external effect is performed. -/
theorem C9_gzip_noop (env : Env) (fs : FS) (in_file : String)
    (out_dir : Option String)
    (h : env.is_remote in_file = true ∨ is_gzipped env in_file = true) :
    gzip_fastq env fs in_file out_dir = (in_file, fs, []) := by
  rcases h with h | h
  · simp [gzip_fastq, h]
  · have hbz : is_bzipped env in_file = false := by
      simp only [is_gzipped, beq_iff_eq] at h
      simp [is_bzipped, h]
    by_cases hfq : env.is_fastq in_file = true <;>
    by_cases hrem : env.is_remote in_file = true <;>
      simp [gzip_fastq, h, hbz, hfq, hrem]

/-- C9 witness: an already gzipped local fastq file is returned untouched. -/
theorem C9_witness :
    gzip_fastq baseEnv c3fs "f.fq.gz" none = ("f.fq.gz", c3fs, []) :=
  C9_gzip_noop baseEnv c3fs "f.fq.gz" none (Or.inr (by decide))

/-- In a staging loop over inputs none of which is a BAM file, every input
contributes exactly one (possibly missing) entry to the accumulator. -/
lemma loop_length_nobam (env : Env) (data : Data) :
    ∀ (files : List String) (ready : List (Option String)) (fs : FS)
      (effs : List Effect),
      (∀ f ∈ files, pyEndsWith f ".bam" = false) →
      (get_fastq_files_loop env data files ready fs effs).1.length =
        ready.length + files.length := by
  intro files
  induction files with
  | nil =>
    intro ready fs effs h
    simp [get_fastq_files_loop]
  | cons a l ih =>
    intro ready fs effs h
    have ha : pyEndsWith a ".bam" = false := h a (by simp)
    have hl : ∀ f ∈ l, pyEndsWith f ".bam" = false := fun f hf => h f (by simp [hf])
    by_cases hr : env.is_remote a = true
    · simp only [get_fastq_files_loop, ha, hr]
      simp [ih _ _ _ hl]
      omega
    · simp only [Bool.not_eq_true] at hr
      by_cases hq : (!data.trim_reads && !(data.quality_format == "standard")) = true
      · simp only [get_fastq_files_loop, ha, hr, hq]
        simp [ih _ _ _ hl]
        omega
      · simp only [Bool.not_eq_true] at hq
        simp only [get_fastq_files_loop, ha, hr, hq]
        simp [ih _ _ _ hl]
        omega

/-- C1 (amended): per-input arity is one-or-zero for every input set free
of aligned-binary files (the staged set is never longer than the input
set plus the incoming accumulator), but an aligned-binary input does not
retain earlier outputs: the staging loop produces the same result whatever
accumulated outputs precede a BAM input, because both BAM sub-branches
reassign the result list. -/
theorem C1_bam_resets_accumulator (env : Env) (data : Data) (fname : String)
    (rest files : List String) (ready ready2 : List (Option String)) (fs : FS)
    (effs : List Effect)
    (hbam : pyEndsWith fname ".bam" = true)
    (hnobam : ∀ f ∈ files, pyEndsWith f ".bam" = false) :
    get_fastq_files_loop env data (fname :: rest) ready fs effs =
      get_fastq_files_loop env data (fname :: rest) ready2 fs effs ∧
    ((get_fastq_files_loop env data files ready fs effs).1.filterMap id).length ≤
      ready.length + files.length := by
  constructor
  · by_cases hn : pipeline_needs_fastq env data = true <;>
      simp [get_fastq_files_loop, hbam, hn]
  · calc ((get_fastq_files_loop env data files ready fs effs).1.filterMap id).length
        ≤ (get_fastq_files_loop env data files ready fs effs).1.length :=
          List.length_filterMap_le _ _
      _ = ready.length + files.length := loop_length_nobam env data files ready fs effs hnobam

/-- C1 witness: with accumulated output from the earlier plain fastq file
or with an empty accumulator, the loop result at the BAM input is the
same; and a BAM-free input list stays within one output per input. -/
theorem C1_witness :
    get_fastq_files_loop baseEnv c1data ["b.bam"] [] c1fs [] =
      get_fastq_files_loop baseEnv c1data ["b.bam"] [some "a.fq"] c1fs [] ∧
    ((get_fastq_files_loop baseEnv c1data ["a.fq"] [] c1fs []).1.filterMap id).length ≤
      ([] : List (Option String)).length + ["a.fq"].length :=
  C1_bam_resets_accumulator baseEnv c1data "b.bam" [] ["a.fq"]
    [] [some "a.fq"] c1fs [] (by decide) (by decide)

/-- C1 counterexample: the claim's retention clause fails. Staged alone,
the plain fastq input `a.fq` yields the output `a.fq`; but in the input
list `[a.fq, b.bam]` whose later member is an aligned-binary file, the
result set is exactly the BAM conversion's outputs and the output for the
earlier input is gone. -/
theorem C1_counterexample :
    stagedFiles baseEnv c1dataSolo c1fs = some ["a.fq"] ∧
    stagedFiles baseEnv c1data c1fs = some ["b1.fq", "b2.fq"] ∧
    "a.fq" ∉ ["b1.fq", "b2.fq"] := by decide

/-- C5: the staged result of a successful `get_fastq_files` run is the
per-file resolution output with gzip-normalization (into the dedicated
`fastq` subdirectory of the work directory) applied to every remaining
file when no `bowtie` resource demands uncompressed input, and to no file
at all otherwise — the decision is a single batch-level boolean, never
per-file. -/
theorem C5_batch_gzip (env : Env) (data : Data) (fs : FS) (files ready : List String)
    (hf : data.files = some files)
    (hok : stagedFiles env data fs = some ready) :
    (data.referenceHasBowtie = true →
      ready = (get_fastq_files_loop env data files [] fs []).1.filterMap id) ∧
    (data.referenceHasBowtie = false →
      ready = (gzip_fastq_all env (some (pathJoin data.work_dir "fastq"))
        ((get_fastq_files_loop env data files [] fs []).1.filterMap id)
        (get_fastq_files_loop env data files [] fs []).2.1).1) := by
  obtain ⟨dfiles, dbow, dtrim, dqual, dwork, dalign⟩ := data
  replace hf : dfiles = some files := hf
  subst hf
  constructor
  · intro hb
    replace hb : dbow = true := hb
    subst hb
    unfold stagedFiles at hok
    rcases hg : get_fastq_files env
        ⟨some files, true, dtrim, dqual, dwork, dalign⟩ fs with e | r
    · rw [hg] at hok
      exact absurd hok (by simp)
    · rw [hg] at hok
      simp only [Option.some.injEq] at hok
      replace hg :
          (match ((get_fastq_files_loop env
              ⟨some files, true, dtrim, dqual, dwork, dalign⟩ files [] fs []).1.filterMap
                id).find?
              (fun f => !(env.is_remote f) &&
                !(file_exists (get_fastq_files_loop env
                  ⟨some files, true, dtrim, dqual, dwork, dalign⟩ files [] fs []).2.1 f)) with
           | some f => Except.error (StageError.doesNotExist f)
           | none => Except.ok
              ((get_fastq_files_loop env
                  ⟨some files, true, dtrim, dqual, dwork, dalign⟩ files [] fs []).1.filterMap id,
               (get_fastq_files_loop env
                  ⟨some files, true, dtrim, dqual, dwork, dalign⟩ files [] fs []).2.1,
               (get_fastq_files_loop env
                  ⟨some files, true, dtrim, dqual, dwork, dalign⟩ files [] fs []).2.2)) =
            Except.ok r := hg
      rcases hfind : ((get_fastq_files_loop env
          ⟨some files, true, dtrim, dqual, dwork, dalign⟩ files [] fs []).1.filterMap
            id).find?
          (fun f => !(env.is_remote f) &&
            !(file_exists (get_fastq_files_loop env
              ⟨some files, true, dtrim, dqual, dwork, dalign⟩ files [] fs []).2.1 f)) with _ | f
      · rw [hfind] at hg
        simp only [Except.ok.injEq] at hg
        rw [← hok, ← hg]
      · rw [hfind] at hg
        exact absurd hg (by simp)
  · intro hb
    replace hb : dbow = false := hb
    subst hb
    unfold stagedFiles at hok
    rcases hg : get_fastq_files env
        ⟨some files, false, dtrim, dqual, dwork, dalign⟩ fs with e | r
    · rw [hg] at hok
      exact absurd hok (by simp)
    · rw [hg] at hok
      simp only [Option.some.injEq] at hok
      replace hg :
          (match (gzip_fastq_all env (some (pathJoin dwork "fastq"))
              ((get_fastq_files_loop env
                ⟨some files, false, dtrim, dqual, dwork, dalign⟩ files [] fs []).1.filterMap id)
              (get_fastq_files_loop env
                ⟨some files, false, dtrim, dqual, dwork, dalign⟩ files [] fs []).2.1).1.find?
              (fun f => !(env.is_remote f) &&
                !(file_exists (gzip_fastq_all env (some (pathJoin dwork "fastq"))
                  ((get_fastq_files_loop env
                    ⟨some files, false, dtrim, dqual, dwork, dalign⟩ files [] fs []).1.filterMap id)
                  (get_fastq_files_loop env
                    ⟨some files, false, dtrim, dqual, dwork, dalign⟩ files [] fs []).2.1).2.1 f)) with
           | some f => Except.error (StageError.doesNotExist f)
           | none => Except.ok
              ((gzip_fastq_all env (some (pathJoin dwork "fastq"))
                  ((get_fastq_files_loop env
                    ⟨some files, false, dtrim, dqual, dwork, dalign⟩ files [] fs []).1.filterMap id)
                  (get_fastq_files_loop env
                    ⟨some files, false, dtrim, dqual, dwork, dalign⟩ files [] fs []).2.1).1,
               (gzip_fastq_all env (some (pathJoin dwork "fastq"))
                  ((get_fastq_files_loop env
                    ⟨some files, false, dtrim, dqual, dwork, dalign⟩ files [] fs []).1.filterMap id)
                  (get_fastq_files_loop env
                    ⟨some files, false, dtrim, dqual, dwork, dalign⟩ files [] fs []).2.1).2.1,
               (get_fastq_files_loop env
                  ⟨some files, false, dtrim, dqual, dwork, dalign⟩ files [] fs []).2.2 ++
                 [Effect.makedir (pathJoin dwork "fastq")] ++
                 (gzip_fastq_all env (some (pathJoin dwork "fastq"))
                  ((get_fastq_files_loop env
                    ⟨some files, false, dtrim, dqual, dwork, dalign⟩ files [] fs []).1.filterMap id)
                  (get_fastq_files_loop env
                    ⟨some files, false, dtrim, dqual, dwork, dalign⟩ files [] fs []).2.1).2.2)) =
            Except.ok r := hg
      rcases hfind : (gzip_fastq_all env (some (pathJoin dwork "fastq"))
          ((get_fastq_files_loop env
            ⟨some files, false, dtrim, dqual, dwork, dalign⟩ files [] fs []).1.filterMap id)
          (get_fastq_files_loop env
            ⟨some files, false, dtrim, dqual, dwork, dalign⟩ files [] fs []).2.1).1.find?
          (fun f => !(env.is_remote f) &&
            !(file_exists (gzip_fastq_all env (some (pathJoin dwork "fastq"))
              ((get_fastq_files_loop env
                ⟨some files, false, dtrim, dqual, dwork, dalign⟩ files [] fs []).1.filterMap id)
              (get_fastq_files_loop env
                ⟨some files, false, dtrim, dqual, dwork, dalign⟩ files [] fs []).2.1).2.1 f)) with _ | f
      · rw [hfind] at hg
        simp only [Except.ok.injEq] at hg
        rw [← hok, ← hg]
      · rw [hfind] at hg
        exact absurd hg (by simp)

/-- C5 witness: without a `bowtie` resource the staged result is the
gzip-normalized resolution (the file lands in the `wd/fastq`
subdirectory), and with one it is the raw resolution. -/
theorem C5_witness :
    ["wd/fastq/x.fq.gz"] =
      (gzip_fastq_all baseEnv (some (pathJoin c5data.work_dir "fastq"))
        ((get_fastq_files_loop baseEnv c5data ["x.fq"] [] c5fs []).1.filterMap id)
        (get_fastq_files_loop baseEnv c5data ["x.fq"] [] c5fs []).2.1).1 ∧
    ["a.fq"] =
      (get_fastq_files_loop baseEnv c1dataSolo ["a.fq"] [] c1fs []).1.filterMap id :=
  ⟨(C5_batch_gzip baseEnv c5data c5fs ["x.fq"] ["wd/fastq/x.fq.gz"]
      (by decide) (by decide)).2 (by decide),
   (C5_batch_gzip baseEnv c1dataSolo c1fs ["a.fq"] ["a.fq"]
      (by decide) (by decide)).1 (by decide)⟩

/-- If any file set lacks a first member, collecting first mates fails
with the indexing error. -/
lemma firsts_err : ∀ (files : List (List String)),
    (∃ l ∈ files, l[0]? = none) →
    firsts files = Except.error MergeError.indexOutOfBounds
  | [], h => by simp at h
  | a :: rest, h => by
    rcases h with ⟨l, hl, hnone⟩
    rcases List.mem_cons.mp hl with rfl | hmem
    · simp [firsts, hnone]
    · cases ha : a[0]? with
      | none => simp [firsts, ha]
      | some x => simp [firsts, ha, firsts_err rest ⟨l, hmem, hnone⟩]

/-- If any file set lacks a second member, collecting second mates fails
with the indexing error. -/
lemma seconds_err : ∀ (files : List (List String)),
    (∃ l ∈ files, l[1]? = none) →
    seconds files = Except.error MergeError.indexOutOfBounds
  | [], h => by simp at h
  | a :: rest, h => by
    rcases h with ⟨l, hl, hnone⟩
    rcases List.mem_cons.mp hl with rfl | hmem
    · simp [seconds, hnone]
    · cases ha : a[1]? with
      | none => simp [seconds, ha]
      | some x => simp [seconds, ha, seconds_err rest ⟨l, hmem, hnone⟩]

/-- With every file set non-empty, collecting first mates succeeds and
yields the heads. -/
lemma firsts_ok : ∀ (files : List (List String)),
    (∀ l ∈ files, l ≠ []) → firsts files = Except.ok (mates1 files)
  | [], _ => rfl
  | a :: rest, h => by
    obtain ⟨x, t, rfl⟩ : ∃ x t, a = x :: t := by
      cases a with
      | nil => exact absurd rfl (h [] (by simp))
      | cons x t => exact ⟨x, t, rfl⟩
    simp [firsts, mates1, firsts_ok rest (fun l hl => h l (by simp [hl]))]

/-- With every file set at least two long, collecting second mates
succeeds and yields the second members. -/
lemma seconds_ok : ∀ (files : List (List String)),
    (∀ l ∈ files, 1 < l.length) → seconds files = Except.ok (mates2 files)
  | [], _ => rfl
  | a :: rest, h => by
    have ha : 1 < a.length := h a (by simp)
    have hx : a[1]? = some (a.get ⟨1, ha⟩) := by rw [List.getElem?_eq_getElem ha]; rfl
    simp [seconds, mates2, hx, seconds_ok rest (fun l hl => h l (by simp [hl]))]

/-- Collecting first mates from singletons of the heads gives the heads. -/
lemma firsts_map_single : ∀ (files : List (List String)),
    firsts (files.map (fun l => [l.headD ""])) = Except.ok (mates1 files)
  | [] => rfl
  | a :: rest => by
    rw [List.map_cons]
    simp only [firsts, List.getElem?_cons_zero]
    rw [firsts_map_single rest]
    simp [mates1]

/-- C10: `merge` decides its mode solely from the first file set and never
validates uniform arity.  An empty sequence of file sets hits the indexing
error; when the first set has more than one member, any later set with
fewer than two members makes the second-mate indexing fail before any
merge occurs; and when the first set has at most one member, single-end
mode reads only the head of every set, so the result is unchanged if every
set is replaced by the singleton of its head. -/
theorem C10_mode_from_first_set (env : Env) (fs : FS) (files : List (List String))
    (out_file : String) (f0 : List String) :
    merge env fs [] out_file = Except.error MergeError.indexOutOfBounds ∧
    (files[0]? = some f0 → 1 < f0.length → (∃ l ∈ files, l.length < 2) →
      merge env fs files out_file = Except.error MergeError.indexOutOfBounds) ∧
    (files[0]? = some f0 → ¬(1 < f0.length) → (∀ l ∈ files, l ≠ []) →
      merge env fs files out_file =
        merge env fs (files.map (fun l => [l.headD ""])) out_file) := by
  refine ⟨?_, ?_, ?_⟩
  · simp [merge, firsts]
  · intro h0 hlen hshort
    by_cases hz : ∃ l ∈ files, l[0]? = none
    · simp [merge, firsts_err files hz]
    · push_neg at hz
      have hnz : ∀ l ∈ files, l ≠ [] := by
        intro l hl hnil
        exact hz l hl (by simp [hnil])
      have hsec : ∃ l ∈ files, l[1]? = none := by
        rcases hshort with ⟨l, hl, hlt⟩
        exact ⟨l, hl, List.getElem?_eq_none (by omega)⟩
      simp [merge, firsts_ok files hnz, h0, hlen, seconds_err files hsec]
  · intro h0 hgt hnz
    unfold merge
    rw [firsts_ok files hnz, firsts_map_single files, List.getElem?_map, h0]
    simp [hgt]

/-- C10 witness: a paired first set followed by a single-member set makes
`merge` fail with the indexing error. -/
theorem C10_witness :
    merge baseEnv c6fs c10files "m.fq.gz" =
      Except.error MergeError.indexOutOfBounds :=
  (C10_mode_from_first_set baseEnv c6fs c10files "m.fq.gz"
      ["a1.fq.gz", "a2.fq.gz"]).2.1
    (by decide) (by decide) ⟨["c1.fq.gz"], by decide, by decide⟩

/-- Appending the empty string is the identity. -/
lemma str_append_empty (s : String) : s ++ "" = s := by
  cases s with
  | mk data =>
    show String.mk (data ++ []) = String.mk data
    rw [List.append_nil]

/-- Concatenating a single file's content is that content. -/
lemma concat_singleton (fs : FS) (f : String) :
    concatContents fs [f] = (fs f).getD "" := by
  simp [concatContents, str_append_empty]

/-- Concatenation only depends on the contents of the listed files. -/
lemma concat_congr (fs1 fs : FS) : ∀ (l : List String),
    (∀ f ∈ l, fs1 f = fs f) → concatContents fs1 l = concatContents fs l
  | [], _ => rfl
  | a :: rest, h => by
    simp only [concatContents]
    rw [h a (by simp), concat_congr fs1 fs rest (fun f hf => h f (by simp [hf]))]

/-- Gzip-normalization is the identity on a list of local, already
gzip-compressed fastq files: no path changes, no filesystem change, no
external effect. -/
lemma gzip_all_gzipped (env : Env) : ∀ (files : List String) (fs : FS),
    (∀ f ∈ files, env.is_fastq f = true ∧ env.is_remote f = false ∧
      env.compression f = Comp.gzip) →
    gzip_fastq_all env none files fs = (files, fs, [])
  | [], _, _ => rfl
  | a :: rest, fs, h => by
    obtain ⟨h1, h2, h3⟩ := h a (by simp)
    have ha : gzip_fastq env fs a none = (a, fs, []) := by
      simp [gzip_fastq, h1, h2, is_bzipped, is_gzipped, h3]
    simp [gzip_fastq_all, ha,
      gzip_all_gzipped env rest fs (fun f hf => h f (by simp [hf]))]

/-- On a non-empty list of local, existing, gzip-compressed fastq files
whose merge target is fresh, `merge_list_fastqs` succeeds, the target ends
up holding the concatenation of the inputs' contents in input order, and
every other path outside the input list is untouched. -/
lemma merge_list_fastqs_good (env : Env) (fs : FS) (files : List String)
    (out_file : String)
    (hne : files ≠ [])
    (hP : ∀ f ∈ files, env.is_fastq f = true ∧ env.is_remote f = false ∧
      env.compression f = Comp.gzip)
    (hex : ∀ f ∈ files, (fs f).isSome = true)
    (hout : fs out_file = none) :
    ∃ fs1 effs,
      merge_list_fastqs env fs files out_file = Except.ok (out_file, fs1, effs) ∧
      fs1 out_file = some (concatContents fs files) ∧
      ∀ q, q ≠ out_file → q ∉ files → fs1 q = fs q := by
  have hfq : files.all env.is_fastq = true :=
    List.all_eq_true.mpr (fun f hf => (hP f hf).1)
  have hexall : files.all (file_exists fs) = true :=
    List.all_eq_true.mpr (fun f hf => hex f hf)
  have hofe : file_exists fs out_file = false := by
    simp [file_exists, hout]
  have hgz := gzip_all_gzipped env files fs hP
  rcases files with _ | ⟨a, _ | ⟨b, rest⟩⟩
  · exact absurd rfl hne
  · have hao : a ≠ out_file := by
      intro h
      have ha := hex a (by simp)
      rw [h, hout] at ha
      simp at ha
    refine ⟨FS.erase (FS.write fs out_file ((fs a).getD "")) a,
            [Effect.move a out_file], ?_, ?_, ?_⟩
    · simp [merge_list_fastqs, hfq, hexall, hofe, hgz]
    · simp [FS.erase, FS.write, Ne.symm hao, concat_singleton]
    · intro q hq hqm
      simp only [List.mem_singleton] at hqm
      simp [FS.erase, FS.write, hqm, hq]
  · have hlen2 : ((a :: b :: rest).length == 1) = false := by
      rw [beq_eq_false_iff_ne]
      simp
    refine ⟨FS.write fs out_file (concatContents fs (a :: b :: rest)),
            [Effect.run ("cat " ++ String.intercalate " " (a :: b :: rest) ++
              " > " ++ out_file)], ?_, ?_, ?_⟩
    · simp [merge_list_fastqs, hfq, hexall, hofe, hgz, hlen2]
    · simp [FS.write]
    · intro q hq _
      simp [FS.write, hq]

/-- Every first mate is a member of one of the file sets. -/
lemma mates1_mem {files : List (List String)} {f : String}
    (hlen : ∀ l ∈ files, l.length = 2) (hf : f ∈ mates1 files) :
    ∃ l ∈ files, f ∈ l := by
  rcases List.mem_map.mp hf with ⟨l, hl, rfl⟩
  obtain ⟨x, y, rfl⟩ := List.length_eq_two.mp (hlen l hl)
  exact ⟨[x, y], hl, by simp⟩

/-- Every second mate is a member of one of the file sets. -/
lemma mates2_mem {files : List (List String)} {f : String}
    (hlen : ∀ l ∈ files, l.length = 2) (hf : f ∈ mates2 files) :
    ∃ l ∈ files, f ∈ l := by
  rcases List.mem_map.mp hf with ⟨l, hl, rfl⟩
  obtain ⟨x, y, rfl⟩ := List.length_eq_two.mp (hlen l hl)
  exact ⟨[x, y], hl, by simp⟩

/-- The two paired output paths are distinct. -/
lemma pairedOut_ne (out_file : String) :
    pairedOut1 out_file ≠ pairedOut2 out_file := by
  unfold pairedOut1 pairedOut2
  intro h
  have hd := congrArg String.data h
  simp only [String.data_append] at hd
  have hd2 := List.append_cancel_right hd
  have hd3 := List.append_cancel_left hd2
  exact absurd hd3 (by decide)

/-- C6: merging an ordered sequence of paired-end file sets (each with
exactly two members, all local existing gzip-compressed fastq files, with
fresh and non-aliasing output paths) produces exactly the two output files
`_R1` / `_R2` obtained by inserting the tags before the extension of the
output template, the first holding the concatenation of the first mates
and the second the concatenation of the second mates, each across all sets
in input order. -/
theorem C6_paired_merge (env : Env) (fs : FS) (files : List (List String))
    (out_file : String)
    (hne : files ≠ [])
    (hlen : ∀ l ∈ files, l.length = 2)
    (hP : ∀ l ∈ files, ∀ f ∈ l, env.is_fastq f = true ∧ env.is_remote f = false ∧
      env.compression f = Comp.gzip)
    (hex : ∀ l ∈ files, ∀ f ∈ l, (fs f).isSome = true)
    (hout1 : fs (pairedOut1 out_file) = none)
    (hout2 : fs (pairedOut2 out_file) = none)
    (hno : ∀ l ∈ files, ∀ f ∈ l,
      f ≠ pairedOut1 out_file ∧ f ≠ pairedOut2 out_file)
    (hsep : ∀ f ∈ mates2 files, f ∉ mates1 files) :
    ∃ fs2 effs,
      merge env fs files out_file =
        Except.ok (MergeResult.paired (pairedOut1 out_file) (pairedOut2 out_file),
          fs2, effs) ∧
      fs2 (pairedOut1 out_file) = some (concatContents fs (mates1 files)) ∧
      fs2 (pairedOut2 out_file) = some (concatContents fs (mates2 files)) := by
  have hnz : ∀ l ∈ files, l ≠ [] := by
    intro l hl h
    have h2 := hlen l hl
    rw [h] at h2
    simp at h2
  have hlt : ∀ l ∈ files, 1 < l.length := by
    intro l hl
    rw [hlen l hl]
    omega
  obtain ⟨fs1, effs1, heq1, hc1, hpres1⟩ :=
    merge_list_fastqs_good env fs (mates1 files) (pairedOut1 out_file)
      (by simpa [mates1] using hne)
      (fun f hf => by
        rcases mates1_mem hlen hf with ⟨l, hl, hfl⟩
        exact hP l hl f hfl)
      (fun f hf => by
        rcases mates1_mem hlen hf with ⟨l, hl, hfl⟩
        exact hex l hl f hfl)
      hout1
  have hfs1eq : ∀ f ∈ mates2 files, fs1 f = fs f := by
    intro f hf
    rcases mates2_mem hlen hf with ⟨l, hl, hfl⟩
    exact hpres1 f (hno l hl f hfl).1 (hsep f hf)
  obtain ⟨fs2, effs2, heq2, hc2, hpres2⟩ :=
    merge_list_fastqs_good env fs1 (mates2 files) (pairedOut2 out_file)
      (by simpa [mates2] using hne)
      (fun f hf => by
        rcases mates2_mem hlen hf with ⟨l, hl, hfl⟩
        exact hP l hl f hfl)
      (fun f hf => by
        rw [hfs1eq f hf]
        rcases mates2_mem hlen hf with ⟨l, hl, hfl⟩
        exact hex l hl f hfl)
      (by
        have hp2m : pairedOut2 out_file ∉ mates1 files := by
          intro hmem
          rcases mates1_mem hlen hmem with ⟨l, hl, hfl⟩
          exact (hno l hl _ hfl).2 rfl
        rw [hpres1 _ (Ne.symm (pairedOut_ne out_file)) hp2m]
        exact hout2)
  refine ⟨fs2, effs1 ++ effs2, ?_, ?_, ?_⟩
  · rcases files with _ | ⟨l0, rest⟩
    · exact absurd rfl hne
    · have h0len : l0.length = 2 := hlen l0 (by simp)
      simp [merge, firsts_ok _ hnz, seconds_ok _ hlt, heq1, heq2, h0len]
  · have hp1m : pairedOut1 out_file ∉ mates2 files := by
      intro hmem
      rcases mates2_mem hlen hmem with ⟨l, hl, hfl⟩
      exact (hno l hl _ hfl).1 rfl
    rw [hpres2 _ (pairedOut_ne out_file) hp1m]
    exact hc1
  · rw [hc2, concat_congr fs1 fs (mates2 files) hfs1eq]

/-- C6 witness: merging the two concrete paired sets produces
`m_R1.fq.gz` / `m_R2.fq.gz` holding the per-mate concatenations. -/
theorem C6_witness :
    ∃ fs2 effs,
      merge baseEnv c6fs c6files "m.fq.gz" =
        Except.ok (MergeResult.paired (pairedOut1 "m.fq.gz") (pairedOut2 "m.fq.gz"),
          fs2, effs) ∧
      fs2 (pairedOut1 "m.fq.gz") = some (concatContents c6fs (mates1 c6files)) ∧
      fs2 (pairedOut2 "m.fq.gz") = some (concatContents c6fs (mates2 c6files)) :=
  C6_paired_merge baseEnv c6fs c6files "m.fq.gz" (by decide) (by decide)
    (by decide) (by decide) (by decide) (by decide) (by decide) (by decide)

end BcbioFastq
